import Mathlib

/- Shallow embedding of the Yumm-Yard-Tracker core: the sales-ledger
operations of database.py (log_sale, get_sales, delete_sale_by_timestamp,
clear_live_sales, archive_live_sales, get_archived_dates,
delete_archived_sales_by_date), the menu catalog (get_menus,
add_menu_item) with its per-session cache, and the Order-Builder
"Log Order" commit loop of 1_Tracker.py.  The `sales` table is a list of
rows; `TEXT` columns are strings, `INTEGER` is Nat, `REAL` is modelled as
the rationals. -/

namespace YummYard

/- A row of the `sales` table created by init_db in database.py:
sales(timestamp TEXT PRIMARY KEY, item_name, quantity, price_per_item,
total_sale, channel, sale_date, status). -/
structure SaleRecord where
  timestamp : String
  item_name : String
  quantity : Nat
  price_per_item : Rat
  total_sale : Rat
  channel : String
  sale_date : String
  status : String
deriving Repr, DecidableEq

abbrev Ledger := List SaleRecord

/- The `sale_dict` argument that the Tracker page passes to db.log_sale:
keys Timestamp, Item, Quantity, Price per Item, Total Sale, Channel. -/
structure SaleInput where
  timestamp : String
  item : String
  quantity : Nat
  price_per_item : Rat
  total_sale : Rat
  channel : String
deriving Repr, DecidableEq

/- The stored failure of the libsql INSERT: the `timestamp TEXT PRIMARY KEY`
constraint of the sales table. -/
inductive DbError where
  | duplicateKey (ts : String)
deriving Repr, DecidableEq

/- True when some row of the ledger already carries the timestamp. -/
def hasTimestamp (l : Ledger) (ts : String) : Bool :=
  l.any fun r => r.timestamp == ts

/- database.py log_sale: a single INSERT INTO sales with the literal
status 'live' and sale_date = date.today().isoformat() (passed here as
`today`).  The PRIMARY KEY on timestamp makes the INSERT fail on a
colliding timestamp, in which case nothing is written and the error
propagates to the caller (log_sale has no try/except). -/
def log_sale (today : String) (s : SaleInput) (l : Ledger) : Except DbError Ledger :=
  if hasTimestamp l s.timestamp then
    Except.error (DbError.duplicateKey s.timestamp)
  else
    Except.ok (l ++ [⟨s.timestamp, s.item, s.quantity, s.price_per_item,
      s.total_sale, s.channel, today, "live"⟩])

/- database.py get_sales: SELECT * FROM sales with the four optional
filters appended to the WHERE clause.  ISO date strings compare
lexicographically, so sale_date >= start is the string order. -/
def get_sales (l : Ledger) (status channel start_date end_date : Option String) : Ledger :=
  l.filter fun r =>
    (match status with
     | some s => r.status == s
     | none => true) &&
    (match channel with
     | some c => r.channel == c
     | none => true) &&
    (match start_date with
     | some d => !(decide (r.sale_date < d))
     | none => true) &&
    (match end_date with
     | some d => !(decide (d < r.sale_date))
     | none => true)

/- database.py delete_sale_by_timestamp: DELETE FROM sales WHERE
timestamp = ?. -/
def delete_sale_by_timestamp (ts : String) (l : Ledger) : Ledger :=
  l.filter fun r => !(r.timestamp == ts)

/- database.py clear_live_sales: DELETE FROM sales WHERE status = 'live'. -/
def clear_live_sales (l : Ledger) : Ledger :=
  l.filter fun r => !(r.status == "live")

/- The effect of the UPDATE of archive_live_sales on one row. -/
def archiveStep (r : SaleRecord) : SaleRecord :=
  if r.status == "live" then
    ⟨r.timestamp, r.item_name, r.quantity, r.price_per_item, r.total_sale,
      r.channel, r.sale_date, "archived"⟩
  else r

/- database.py archive_live_sales (the End-of-Day action behind closeDay):
UPDATE sales SET status = 'archived' WHERE status = 'live'. -/
def archive_live_sales (l : Ledger) : Ledger :=
  l.map archiveStep

/- database.py get_archived_dates: SELECT DISTINCT sale_date FROM sales
WHERE status = 'archived' ORDER BY sale_date DESC. -/
def get_archived_dates (l : Ledger) : List String :=
  (((l.filter fun r => r.status == "archived").map fun r => r.sale_date).dedup).mergeSort
    fun a b => !(decide (a < b))

/- database.py delete_archived_sales_by_date: DELETE FROM sales WHERE
status = 'archived' AND sale_date = ?. -/
def delete_archived_sales_by_date (d : String) (l : Ledger) : Ledger :=
  l.filter fun r => !(r.status == "archived" && r.sale_date == d)

/- A channel's menu as the Tracker consumes it: the item -> price mapping
built by get_menus, as an association list in insertion order (Python
dicts preserve insertion order; the SELECT orders by item_name, so keys
are unique). -/
abbrev Menu := List (String × Rat)

/- Python `menu.get(itm, 0.0)`: the price of an item, defaulting to 0
when the item is absent. -/
def menuGet (m : Menu) (item : String) : Rat :=
  match m.find? (fun p => p.1 == item) with
  | some p => p.2
  | none => 0

/- database.py add_menu_item: INSERT OR REPLACE INTO menus, keyed by
(item_name, channel); one channel is modelled, so the key is item_name. -/
def add_menu_item (item : String) (price : Rat) (m : Menu) : Menu :=
  if m.any (fun p => p.1 == item) then
    m.map fun p => if p.1 == item then (item, price) else p
  else
    m ++ [(item, price)]

/- The Streamlit session around one channel's menu: the persistent menus
table (dbMenu) and st.session_state.menus (cache), which 1_Tracker.py
fills from db.get_menus() only when the key is absent. -/
structure Session where
  dbMenu : Menu
  cache : Option Menu
deriving Repr, DecidableEq

/- 1_Tracker.py lines 63-65: if 'menus' not in st.session_state:
st.session_state.menus = db.get_menus(); menus = st.session_state.menus.
Returns the menu the page will use and the session afterwards. -/
def getMenusCached (s : Session) : Menu × Session :=
  match s.cache with
  | some m => (m, s)
  | none => (s.dbMenu, ⟨s.dbMenu, some s.dbMenu⟩)

/- The POS order being built: st.session_state.current_order_* as an
association list (item -> pending quantity) in insertion order. -/
abbrev Order := List (String × Nat)

/- The SaleRecord the Log Order handler builds for line number `i` of the
order: price looked up with menu.get(itm, 0.0), total = price * qty,
timestamp drawn from the per-line clock reading `tss i`. -/
def lineRecord (today ch : String) (menu : Menu) (tss : Nat → String)
    (i : Nat) (itm : String) (qty : Nat) : SaleRecord :=
  ⟨tss i, itm, qty, menuGet menu itm, menuGet menu itm * (qty : Rat), ch, today, "live"⟩

/- The records the commit loop would write for a pending order, first
line numbered `i`. -/
def expectedRecords (today ch : String) (menu : Menu) (tss : Nat → String) :
    Nat → Order → Ledger
  | _, [] => []
  | i, (itm, qty) :: rest =>
    lineRecord today ch menu tss i itm qty ::
      expectedRecords today ch menu tss (i + 1) rest

/- The observable outcome of pressing Log Order: whether an insert
failed, the sales table afterwards, and the pending order afterwards. -/
structure CommitOutcome where
  result : Option DbError
  ledger : Ledger
  builder : Order
deriving DecidableEq

/- The `for itm, qty in list(order.items())` loop of the Log Order
handler (1_Tracker.py lines 146-173 offline, 253-280 online): each line
is persisted by its own db.log_sale call; an uncaught insert failure
aborts the script run, leaving the rows already written in place. -/
def commitLoop (today ch : String) (menu : Menu) (tss : Nat → String) :
    Nat → Order → Ledger → Option DbError × Ledger
  | _, [], l => (none, l)
  | i, (itm, qty) :: rest, l =>
    match log_sale today ⟨tss i, itm, qty, menuGet menu itm,
        menuGet menu itm * (qty : Rat), ch⟩ l with
    | Except.error e => (some e, l)
    | Except.ok l2 => commitLoop today ch menu tss (i + 1) rest l2

/- The whole Log Order button handler: run the loop; only when every
line was written does the handler reach the line that clears
st.session_state.current_order_*. -/
def log_order (today ch : String) (menu : Menu) (tss : Nat → String)
    (order : Order) (l : Ledger) : CommitOutcome :=
  match commitLoop today ch menu tss 0 order l with
  | (none, l2) => ⟨none, l2, []⟩
  | (some e, l2) => ⟨some e, l2, order⟩

/- Basic facts about the embedded operations, shared by the claim
theorems below. -/

theorem hasTimestamp_iff (l : Ledger) (ts : String) :
    hasTimestamp l ts = true ↔ ∃ r, r ∈ l ∧ r.timestamp = ts := by
  simp [hasTimestamp, List.any_eq_true, beq_iff_eq]

theorem hasTimestamp_append (l : Ledger) (r : SaleRecord) (ts : String) :
    hasTimestamp (l ++ [r]) ts = (hasTimestamp l ts || (r.timestamp == ts)) := by
  simp [hasTimestamp]

theorem get_sales_status (l : Ledger) (s : String) :
    get_sales l (some s) none none none = l.filter fun r => r.status == s := by
  simp [get_sales]

theorem log_sale_of_fresh (today : String) (s : SaleInput) (l : Ledger)
    (h : hasTimestamp l s.timestamp = false) :
    log_sale today s l = Except.ok (l ++ [⟨s.timestamp, s.item, s.quantity,
      s.price_per_item, s.total_sale, s.channel, today, "live"⟩]) := by
  simp [log_sale, h]

theorem log_sale_of_dup (today : String) (s : SaleInput) (l : Ledger)
    (h : hasTimestamp l s.timestamp = true) :
    log_sale today s l = Except.error (DbError.duplicateKey s.timestamp) := by
  simp [log_sale, h]

theorem mem_expectedRecords (today ch : String) (menu : Menu) (tss : Nat → String) :
    ∀ (pending : Order) (i : Nat) (r : SaleRecord),
      r ∈ expectedRecords today ch menu tss i pending →
      r.total_sale = r.price_per_item * (r.quantity : Rat) ∧
      r.price_per_item = menuGet menu r.item_name ∧ r.status = "live" := by
  intro pending
  induction pending with
  | nil => intro i r h; simp [expectedRecords] at h
  | cons hd tl ih =>
    intro i r h
    obtain ⟨itm, qty⟩ := hd
    simp only [expectedRecords, List.mem_cons] at h
    rcases h with h | h
    · subst h; exact ⟨rfl, rfl, rfl⟩
    · exact ih (i + 1) r h

theorem expectedRecords_getElem (today ch : String) (menu : Menu) (tss : Nat → String) :
    ∀ (pending : Order) (j i : Nat) (itm : String) (qty : Nat),
      pending[i]? = some (itm, qty) →
      lineRecord today ch menu tss (j + i) itm qty ∈
        expectedRecords today ch menu tss j pending := by
  intro pending
  induction pending with
  | nil => intro j i itm qty h; simp at h
  | cons hd tl ih =>
    intro j i itm qty h
    obtain ⟨itm0, qty0⟩ := hd
    cases i with
    | zero =>
      simp only [List.getElem?_cons_zero, Option.some_inj, Prod.mk.injEq] at h
      obtain ⟨rfl, rfl⟩ := h
      simp [expectedRecords, List.mem_cons, Nat.add_zero]
    | succ i =>
      simp only [List.getElem?_cons_succ] at h
      have hmem := ih (j + 1) i itm qty h
      have harith : j + 1 + i = j + (i + 1) := by omega
      rw [harith] at hmem
      simp only [expectedRecords, List.mem_cons]
      exact Or.inr hmem

theorem commitLoop_initial (today ch : String) (menu : Menu) (tss : Nat → String) :
    ∀ (pending : Order) (i : Nat) (l : Ledger),
      ∃ k, k ≤ pending.length ∧
        (commitLoop today ch menu tss i pending l).2 =
          l ++ expectedRecords today ch menu tss i (pending.take k) ∧
        ((commitLoop today ch menu tss i pending l).1 = none →
          k = pending.length) := by
  intro pending
  induction pending with
  | nil =>
    intro i l
    exact ⟨0, by simp [commitLoop, expectedRecords]⟩
  | cons hd tl ih =>
    intro i l
    obtain ⟨itm, qty⟩ := hd
    by_cases hts : hasTimestamp l (tss i) = true
    · refine ⟨0, by simp, ?_, ?_⟩
      · simp [commitLoop, log_sale, hts, expectedRecords]
      · simp [commitLoop, log_sale, hts]
    · rw [Bool.not_eq_true] at hts
      have hstep : commitLoop today ch menu tss i ((itm, qty) :: tl) l =
          commitLoop today ch menu tss (i + 1) tl
            (l ++ [lineRecord today ch menu tss i itm qty]) := by
        simp [commitLoop, log_sale, hts, lineRecord]
      obtain ⟨k, hk, hled, hres⟩ :=
        ih (i + 1) (l ++ [lineRecord today ch menu tss i itm qty])
      refine ⟨k + 1, by simpa using Nat.succ_le_succ hk, ?_, ?_⟩
      · rw [hstep, hled]
        simp [expectedRecords, List.take_succ_cons, List.append_assoc]
      · intro hnone
        rw [hstep] at hnone
        simpa using hres hnone

theorem commitLoop_ok (today ch : String) (menu : Menu) (tss : Nat → String)
    (pending : Order) (i : Nat) (l : Ledger)
    (h : (commitLoop today ch menu tss i pending l).1 = none) :
    (commitLoop today ch menu tss i pending l).2 =
      l ++ expectedRecords today ch menu tss i pending := by
  obtain ⟨k, _, hled, hres⟩ := commitLoop_initial today ch menu tss pending i l
  rw [hled, hres h, List.take_length]

theorem log_order_ledger (today ch : String) (menu : Menu) (tss : Nat → String)
    (order : Order) (l : Ledger) :
    (log_order today ch menu tss order l).ledger =
      (commitLoop today ch menu tss 0 order l).2 ∧
    (log_order today ch menu tss order l).result =
      (commitLoop today ch menu tss 0 order l).1 := by
  rcases hcl : commitLoop today ch menu tss 0 order l with ⟨res, l2⟩
  cases res with
  | none => simp [log_order, hcl]
  | some e => simp [log_order, hcl]

/- The core operation surface over the sales ledger (spec section 6), as
the repository implements it in database.py. -/
inductive Op where
  | opLogSale (today : String) (s : SaleInput)
  | opDeleteSale (ts : String)
  | opClearLive
  | opCloseDay
  | opDeleteArchived (d : String)

/- The ledger after one core operation; a failed log_sale writes
nothing. -/
def applyOp (op : Op) (l : Ledger) : Ledger :=
  match op with
  | Op.opLogSale today s =>
    match log_sale today s l with
    | Except.ok l2 => l2
    | Except.error _ => l
  | Op.opDeleteSale ts => delete_sale_by_timestamp ts l
  | Op.opClearLive => clear_live_sales l
  | Op.opCloseDay => archive_live_sales l
  | Op.opDeleteArchived d => delete_archived_sales_by_date d l

/- The ledger after a sequence of core operations. -/
def applyOps (ops : List Op) (l : Ledger) : Ledger :=
  match ops with
  | [] => l
  | op :: rest => applyOps rest (applyOp op l)

theorem archiveStep_of_live (r : SaleRecord) (h : r.status = "live") :
    archiveStep r = ⟨r.timestamp, r.item_name, r.quantity, r.price_per_item,
      r.total_sale, r.channel, r.sale_date, "archived"⟩ := by
  simp [archiveStep, h]

theorem archiveStep_of_not_live (r : SaleRecord) (h : ¬ r.status = "live") :
    archiveStep r = r := by
  simp [archiveStep, h]

theorem archive_filter_live (l : Ledger) :
    (archive_live_sales l).filter (fun r => r.status == "live") = [] := by
  induction l with
  | nil => simp [archive_live_sales]
  | cons r rest ih =>
    by_cases h : r.status = "live"
    · simpa [archive_live_sales, archiveStep_of_live r h] using ih
    · simpa [archive_live_sales, archiveStep_of_not_live r h, h] using ih

theorem mem_archive_of_mem (l : Ledger) (r : SaleRecord) (h : r ∈ l) :
    archiveStep r ∈ archive_live_sales l :=
  List.mem_map_of_mem archiveStep h

theorem mem_get_archived_dates (l : Ledger) (r : SaleRecord) (h : r ∈ l)
    (ha : r.status = "archived") : r.sale_date ∈ get_archived_dates l := by
  unfold get_archived_dates
  rw [List.mem_mergeSort, List.mem_dedup]
  exact List.mem_map_of_mem _ (List.mem_filter.mpr ⟨h, by simp [ha]⟩)

theorem filter_timestamp_length_le_one (ts : String) :
    ∀ l : Ledger, (l.map fun r => r.timestamp).Nodup →
      (l.filter fun r => r.timestamp == ts).length ≤ 1 := by
  intro l
  induction l with
  | nil => intro _; simp
  | cons r rest ih =>
    intro hnd
    simp only [List.map_cons, List.nodup_cons] at hnd
    obtain ⟨hnotin, hnd2⟩ := hnd
    by_cases h : r.timestamp = ts
    · have hrest : rest.filter (fun s => s.timestamp == ts) = [] := by
        rw [List.filter_eq_nil_iff]
        intro s hs hbeq
        rw [beq_iff_eq] at hbeq
        have hmem : s.timestamp ∈ rest.map (fun q => q.timestamp) :=
          List.mem_map_of_mem _ hs
        rw [hbeq, ← h] at hmem
        exact hnotin hmem
      simp [List.filter_cons, h, hrest]
    · simpa [List.filter_cons, h] using ih hnd2

theorem archiveStep_timestamp (r : SaleRecord) :
    (archiveStep r).timestamp = r.timestamp := by
  unfold archiveStep
  split <;> rfl

theorem hasTimestamp_false_iff (l : Ledger) (ts : String) :
    hasTimestamp l ts = false ↔ ¬ ts ∈ l.map fun r => r.timestamp := by
  rw [← Bool.not_eq_true, not_iff_not, hasTimestamp_iff]
  simp [List.mem_map, eq_comm]

theorem applyOp_mem (op : Op) (l : Ledger) (r' : SaleRecord)
    (h : r' ∈ applyOp op l) :
    r' ∈ l ∨
      (∃ r, r ∈ l ∧ r.status = "live" ∧
        r' = ⟨r.timestamp, r.item_name, r.quantity, r.price_per_item,
          r.total_sale, r.channel, r.sale_date, "archived"⟩) ∨
      (r'.status = "live" ∧ hasTimestamp l r'.timestamp = false) := by
  cases op with
  | opLogSale today s =>
    rcases hls : log_sale today s l with e | l2
    · rw [applyOp, hls] at h
      exact Or.inl h
    · rw [applyOp, hls] at h
      unfold log_sale at hls
      split at hls
      · cases hls
      · rename_i hfresh
        rw [Bool.not_eq_true] at hfresh
        rw [Except.ok.injEq] at hls
        subst hls
        rcases List.mem_append.mp h with h2 | h2
        · exact Or.inl h2
        · simp only [List.mem_singleton] at h2
          subst h2
          exact Or.inr (Or.inr ⟨rfl, hfresh⟩)
  | opDeleteSale ts =>
    exact Or.inl (List.mem_filter.mp h).1
  | opClearLive =>
    exact Or.inl (List.mem_filter.mp h).1
  | opCloseDay =>
    obtain ⟨r, hr, hrr⟩ := List.mem_map.mp h
    by_cases hlive : r.status = "live"
    · exact Or.inr (Or.inl ⟨r, hr, hlive, by rw [← hrr, archiveStep_of_live r hlive]⟩)
    · rw [archiveStep_of_not_live r hlive] at hrr
      exact Or.inl (hrr ▸ hr)
  | opDeleteArchived d =>
    exact Or.inl (List.mem_filter.mp h).1

theorem applyOp_status (op : Op) (l : Ledger)
    (hl : ∀ r, r ∈ l → r.status = "live" ∨ r.status = "archived") :
    ∀ r', r' ∈ applyOp op l → r'.status = "live" ∨ r'.status = "archived" := by
  intro r' h
  rcases applyOp_mem op l r' h with h2 | ⟨r, _, _, rfl⟩ | ⟨h2, _⟩
  · exact hl r' h2
  · exact Or.inr rfl
  · exact Or.inl h2

theorem mem_eq_of_timestamp (l : Ledger)
    (hnd : (l.map fun r => r.timestamp).Nodup) (r1 r2 : SaleRecord)
    (h1 : r1 ∈ l) (h2 : r2 ∈ l) (hts : r1.timestamp = r2.timestamp) :
    r1 = r2 :=
  List.inj_on_of_nodup_map hnd h1 h2 hts

theorem applyOp_timestamp_nodup (op : Op) (l : Ledger)
    (hnd : (l.map fun r => r.timestamp).Nodup) :
    ((applyOp op l).map fun r => r.timestamp).Nodup := by
  cases op with
  | opLogSale today s =>
    rcases hls : log_sale today s l with e | l2
    · rw [applyOp, hls]
      exact hnd
    · rw [applyOp, hls]
      unfold log_sale at hls
      split at hls
      · cases hls
      · rename_i hfresh
        rw [Bool.not_eq_true, hasTimestamp_false_iff] at hfresh
        rw [Except.ok.injEq] at hls
        subst hls
        have hfresh2 : ∀ x ∈ l, ¬ x.timestamp = s.timestamp := by
          intro x hx he
          apply hfresh
          rw [← he]
          exact List.mem_map_of_mem _ hx
        simpa [List.nodup_append] using ⟨hnd, hfresh2⟩
  | opDeleteSale ts =>
    exact ((List.filter_sublist l).map _).nodup hnd
  | opClearLive =>
    exact ((List.filter_sublist l).map _).nodup hnd
  | opCloseDay =>
    have hmaps : ((archive_live_sales l).map fun r => r.timestamp) =
        l.map fun r => r.timestamp := by
      unfold archive_live_sales
      rw [List.map_map]
      exact List.map_congr_left fun r _ => archiveStep_timestamp r
    rw [applyOp, hmaps]
    exact hnd
  | opDeleteArchived d =>
    exact ((List.filter_sublist l).map _).nodup hnd

theorem applyOp_archived_fixed (op : Op) (l : Ledger)
    (hnd : (l.map fun r => r.timestamp).Nodup) (a : SaleRecord)
    (ha : a ∈ l) (harch : a.status = "archived") :
    ∀ r', r' ∈ applyOp op l → r'.timestamp = a.timestamp → r' = a := by
  intro r' h hts
  rcases applyOp_mem op l r' h with h2 | ⟨r, hr, hlive, rfl⟩ | ⟨_, hfresh⟩
  · exact mem_eq_of_timestamp l hnd r' a h2 ha hts
  · have hra : r = a := mem_eq_of_timestamp l hnd r a hr ha hts
    rw [hra, harch] at hlive
    simp at hlive
  · rw [hasTimestamp_false_iff] at hfresh
    refine absurd ?_ hfresh
    rw [hts]
    exact List.mem_map_of_mem _ ha

theorem applyOps_status (ops : List Op) :
    ∀ l : Ledger, (∀ r, r ∈ l → r.status = "live" ∨ r.status = "archived") →
      ∀ r', r' ∈ applyOps ops l → r'.status = "live" ∨ r'.status = "archived" := by
  induction ops with
  | nil => intro l hl r' h; exact hl r' h
  | cons op rest ih =>
    intro l hl r' h
    exact ih (applyOp op l) (applyOp_status op l hl) r' h

/-- Claim C3: after archive_live_sales (the closeDay action), querying the
sales ledger for status live returns the empty set; every record that was
live immediately before the call is present afterwards with status
archived and with timestamp, item_name, quantity, price_per_item,
total_sale, channel and sale_date unchanged; every record that was not
live (in particular every already-archived record) is present
unchanged. -/
theorem C3_archive_live_complete (l : Ledger) :
    get_sales (archive_live_sales l) (some "live") none none none = [] ∧
    (∀ r, r ∈ l → r.status = "live" →
      (⟨r.timestamp, r.item_name, r.quantity, r.price_per_item, r.total_sale,
        r.channel, r.sale_date, "archived"⟩ : SaleRecord) ∈ archive_live_sales l) ∧
    (∀ r, r ∈ l → ¬ r.status = "live" → r ∈ archive_live_sales l) := by
  refine ⟨?_, ?_, ?_⟩
  · rw [get_sales_status]
    exact archive_filter_live l
  · intro r hr hlive
    have hmem := mem_archive_of_mem l r hr
    rwa [archiveStep_of_live r hlive] at hmem
  · intro r hr hnot
    have hmem := mem_archive_of_mem l r hr
    rwa [archiveStep_of_not_live r hnot] at hmem

/-- Witness for C3 at a two-record ledger holding one live and one
already-archived sale. -/
theorem C3_archive_live_complete_witness :
    get_sales (archive_live_sales
      [⟨"t1", "Tea", 2, 20, 40, "Offline", "2026-10-12", "live"⟩,
       ⟨"t0", "Old", 1, 5, 5, "Offline", "2026-10-11", "archived"⟩])
      (some "live") none none none = [] ∧
    (⟨"t1", "Tea", 2, 20, 40, "Offline", "2026-10-12", "archived"⟩ : SaleRecord) ∈
      archive_live_sales
        [⟨"t1", "Tea", 2, 20, 40, "Offline", "2026-10-12", "live"⟩,
         ⟨"t0", "Old", 1, 5, 5, "Offline", "2026-10-11", "archived"⟩] ∧
    (⟨"t0", "Old", 1, 5, 5, "Offline", "2026-10-11", "archived"⟩ : SaleRecord) ∈
      archive_live_sales
        [⟨"t1", "Tea", 2, 20, 40, "Offline", "2026-10-12", "live"⟩,
         ⟨"t0", "Old", 1, 5, 5, "Offline", "2026-10-11", "archived"⟩] :=
  ⟨(C3_archive_live_complete _).1,
   (C3_archive_live_complete _).2.1
     ⟨"t1", "Tea", 2, 20, 40, "Offline", "2026-10-12", "live"⟩ (by decide) rfl,
   (C3_archive_live_complete _).2.2
     ⟨"t0", "Old", 1, 5, 5, "Offline", "2026-10-11", "archived"⟩ (by decide)
     (by decide)⟩

/-- Claim C6: log_sale appends the record with status live when its
timestamp is fresh, and when the timestamp equals the timestamp of any
existing record the INSERT fails with the duplicate-key error, which
propagates to the caller (log_sale has no handler); in the error case no
new ledger is produced, so the ledger is unchanged. -/
theorem C6_log_sale_duplicate (today : String) (s : SaleInput) (l : Ledger) :
    ((∃ r, r ∈ l ∧ r.timestamp = s.timestamp) →
      log_sale today s l = Except.error (DbError.duplicateKey s.timestamp)) ∧
    ((¬ ∃ r, r ∈ l ∧ r.timestamp = s.timestamp) →
      log_sale today s l = Except.ok (l ++ [⟨s.timestamp, s.item, s.quantity,
        s.price_per_item, s.total_sale, s.channel, today, "live"⟩])) := by
  constructor
  · intro h
    exact log_sale_of_dup today s l ((hasTimestamp_iff l s.timestamp).mpr h)
  · intro h
    apply log_sale_of_fresh
    rw [← Bool.not_eq_true]
    intro hc
    exact h ((hasTimestamp_iff l s.timestamp).mp hc)

/-- Witness for C6: a colliding insert fails with the duplicate-key
error, and a fresh insert lands with status live. -/
theorem C6_log_sale_duplicate_witness :
    log_sale "2026-10-12" ⟨"t1", "Tea", 1, 20, 20, "Offline"⟩
      [⟨"t1", "Old", 1, 5, 5, "Offline", "2026-10-11", "live"⟩] =
      Except.error (DbError.duplicateKey "t1") ∧
    log_sale "2026-10-12" ⟨"t2", "Tea", 1, 20, 20, "Offline"⟩
      [⟨"t1", "Old", 1, 5, 5, "Offline", "2026-10-11", "live"⟩] =
      Except.ok [⟨"t1", "Old", 1, 5, 5, "Offline", "2026-10-11", "live"⟩,
        ⟨"t2", "Tea", 1, 20, 20, "Offline", "2026-10-12", "live"⟩] :=
  ⟨(C6_log_sale_duplicate "2026-10-12" ⟨"t1", "Tea", 1, 20, 20, "Offline"⟩ _).1
     ⟨⟨"t1", "Old", 1, 5, 5, "Offline", "2026-10-11", "live"⟩, by decide, rfl⟩,
   (C6_log_sale_duplicate "2026-10-12" ⟨"t2", "Tea", 1, 20, 20, "Offline"⟩ _).2
     (by decide)⟩

/-- Claim C7: delete_sale_by_timestamp keeps exactly the records whose
timestamp differs (so the matching record is removed whatever its status
and, when ledger timestamps are unique, at most one record matches);
when no record carries the timestamp it is a no-op without error; and
running it twice equals running it once. -/
theorem C7_delete_idempotent (ts : String) (l : Ledger) :
    (∀ r, r ∈ delete_sale_by_timestamp ts l → r ∈ l ∧ ¬ r.timestamp = ts) ∧
    (∀ r, r ∈ l → ¬ r.timestamp = ts → r ∈ delete_sale_by_timestamp ts l) ∧
    delete_sale_by_timestamp ts (delete_sale_by_timestamp ts l) =
      delete_sale_by_timestamp ts l ∧
    ((∀ r, r ∈ l → ¬ r.timestamp = ts) → delete_sale_by_timestamp ts l = l) ∧
    ((l.map fun r => r.timestamp).Nodup →
      (l.filter fun r => r.timestamp == ts).length ≤ 1) := by
  refine ⟨?_, ?_, ?_, ?_, ?_⟩
  · intro r h
    obtain ⟨h1, h2⟩ := List.mem_filter.mp h
    simp only [Bool.not_eq_eq_eq_not, Bool.not_true, beq_eq_false_iff_ne] at h2
    exact ⟨h1, h2⟩
  · intro r h1 h2
    exact List.mem_filter.mpr ⟨h1, by simpa using h2⟩
  · simp [delete_sale_by_timestamp, List.filter_filter]
  · intro h
    apply List.filter_eq_self.mpr
    intro r hr
    simpa using h r hr
  · exact filter_timestamp_length_le_one ts l

/-- Witness for C7 at a concrete two-record ledger and the timestamp of
its first record. -/
theorem C7_delete_idempotent_witness :
    (⟨"t2", "Tea", 1, 20, 20, "Offline", "2026-10-12", "live"⟩ : SaleRecord) ∈
      delete_sale_by_timestamp "t1"
        [⟨"t1", "Old", 1, 5, 5, "Offline", "2026-10-11", "archived"⟩,
         ⟨"t2", "Tea", 1, 20, 20, "Offline", "2026-10-12", "live"⟩] ∧
    delete_sale_by_timestamp "t1" (delete_sale_by_timestamp "t1"
        [⟨"t1", "Old", 1, 5, 5, "Offline", "2026-10-11", "archived"⟩,
         ⟨"t2", "Tea", 1, 20, 20, "Offline", "2026-10-12", "live"⟩]) =
      delete_sale_by_timestamp "t1"
        [⟨"t1", "Old", 1, 5, 5, "Offline", "2026-10-11", "archived"⟩,
         ⟨"t2", "Tea", 1, 20, 20, "Offline", "2026-10-12", "live"⟩] ∧
    delete_sale_by_timestamp "t9"
        [⟨"t1", "Old", 1, 5, 5, "Offline", "2026-10-11", "archived"⟩,
         ⟨"t2", "Tea", 1, 20, 20, "Offline", "2026-10-12", "live"⟩] =
      [⟨"t1", "Old", 1, 5, 5, "Offline", "2026-10-11", "archived"⟩,
       ⟨"t2", "Tea", 1, 20, 20, "Offline", "2026-10-12", "live"⟩] ∧
    (([⟨"t1", "Old", 1, 5, 5, "Offline", "2026-10-11", "archived"⟩,
       ⟨"t2", "Tea", 1, 20, 20, "Offline", "2026-10-12", "live"⟩] : Ledger).filter
        fun r => r.timestamp == "t1").length ≤ 1 :=
  ⟨(C7_delete_idempotent "t1" _).2.1
     ⟨"t2", "Tea", 1, 20, 20, "Offline", "2026-10-12", "live"⟩ (by decide) (by decide),
   (C7_delete_idempotent "t1" _).2.2.1,
   (C7_delete_idempotent "t9" _).2.2.2.1 (by decide),
   (C7_delete_idempotent "t1"
      [⟨"t1", "Old", 1, 5, 5, "Offline", "2026-10-11", "archived"⟩,
       ⟨"t2", "Tea", 1, 20, 20, "Offline", "2026-10-12", "live"⟩]).2.2.2.2
     (by decide)⟩

/-- Claim C8: clear_live_sales removes every live record and nothing
else: afterwards the live query is empty, the archived query is exactly
what it was before, every surviving record was present before with a
non-live status, and every non-live record survives. -/
theorem C8_clear_live (l : Ledger) :
    get_sales (clear_live_sales l) (some "live") none none none = [] ∧
    get_sales (clear_live_sales l) (some "archived") none none none =
      get_sales l (some "archived") none none none ∧
    (∀ r, r ∈ clear_live_sales l → r ∈ l ∧ ¬ r.status = "live") ∧
    (∀ r, r ∈ l → ¬ r.status = "live" → r ∈ clear_live_sales l) := by
  refine ⟨?_, ?_, ?_, ?_⟩
  · rw [get_sales_status]
    simp [clear_live_sales, List.filter_filter]
  · rw [get_sales_status, get_sales_status]
    unfold clear_live_sales
    rw [List.filter_filter]
    apply List.filter_congr
    intro r _
    by_cases h : r.status = "archived"
    · simp [h]
    · simp [h]
  · intro r h
    obtain ⟨h1, h2⟩ := List.mem_filter.mp h
    simp only [Bool.not_eq_eq_eq_not, Bool.not_true, beq_eq_false_iff_ne] at h2
    exact ⟨h1, h2⟩
  · intro r h1 h2
    exact List.mem_filter.mpr ⟨h1, by simpa using h2⟩

/-- Witness for C8 at a ledger with two live records and one archived
record. -/
theorem C8_clear_live_witness :
    get_sales (clear_live_sales
      [⟨"t1", "Tea", 1, 20, 20, "Offline", "2026-10-12", "live"⟩,
       ⟨"t2", "Coffee", 1, 10, 10, "Online", "2026-10-12", "live"⟩,
       ⟨"t0", "Old", 1, 5, 5, "Offline", "2026-10-11", "archived"⟩])
      (some "live") none none none = [] ∧
    get_sales (clear_live_sales
      [⟨"t1", "Tea", 1, 20, 20, "Offline", "2026-10-12", "live"⟩,
       ⟨"t2", "Coffee", 1, 10, 10, "Online", "2026-10-12", "live"⟩,
       ⟨"t0", "Old", 1, 5, 5, "Offline", "2026-10-11", "archived"⟩])
      (some "archived") none none none =
      get_sales
        [⟨"t1", "Tea", 1, 20, 20, "Offline", "2026-10-12", "live"⟩,
         ⟨"t2", "Coffee", 1, 10, 10, "Online", "2026-10-12", "live"⟩,
         ⟨"t0", "Old", 1, 5, 5, "Offline", "2026-10-11", "archived"⟩]
        (some "archived") none none none ∧
    (⟨"t0", "Old", 1, 5, 5, "Offline", "2026-10-11", "archived"⟩ : SaleRecord) ∈
      clear_live_sales
        [⟨"t1", "Tea", 1, 20, 20, "Offline", "2026-10-12", "live"⟩,
         ⟨"t2", "Coffee", 1, 10, 10, "Online", "2026-10-12", "live"⟩,
         ⟨"t0", "Old", 1, 5, 5, "Offline", "2026-10-11", "archived"⟩] :=
  ⟨(C8_clear_live _).1,
   (C8_clear_live _).2.1,
   (C8_clear_live _).2.2.2
     ⟨"t0", "Old", 1, 5, 5, "Offline", "2026-10-11", "archived"⟩ (by decide)
     (by decide)⟩

/-- Claim C9: after any core operation, every ledger record is either an
old record unchanged, an old live record whose status alone became
archived, or a genuinely new record — status live and a timestamp no
pre-existing record carried (log_sale rejects duplicate keys), so no
operation can produce a live copy of an archived record; moreover, when
the ledger's timestamps are unique (the table's primary-key invariant),
an archived record's timestamp resolves after any operation only to
that very record, unchanged, and every operation preserves timestamp
uniqueness, so the guarantee iterates along any operation sequence; and
under any sequence of core operations a ledger whose statuses are live
or archived only ever holds the statuses live or archived. -/
theorem C9_status_monotone (op : Op) (l : Ledger) :
    (∀ r', r' ∈ applyOp op l →
      r' ∈ l ∨
        (∃ r, r ∈ l ∧ r.status = "live" ∧
          r' = ⟨r.timestamp, r.item_name, r.quantity, r.price_per_item,
            r.total_sale, r.channel, r.sale_date, "archived"⟩) ∨
        (r'.status = "live" ∧ hasTimestamp l r'.timestamp = false)) ∧
    ((l.map fun r => r.timestamp).Nodup →
      ∀ a, a ∈ l → a.status = "archived" →
        ∀ r', r' ∈ applyOp op l → r'.timestamp = a.timestamp → r' = a) ∧
    ((l.map fun r => r.timestamp).Nodup →
      ((applyOp op l).map fun r => r.timestamp).Nodup) ∧
    (∀ ops : List Op,
      (∀ r, r ∈ l → r.status = "live" ∨ r.status = "archived") →
      ∀ r', r' ∈ applyOps ops l →
        r'.status = "live" ∨ r'.status = "archived") :=
  ⟨fun r' h => applyOp_mem op l r' h,
   fun hnd a ha harch r' h hts => applyOp_archived_fixed op l hnd a ha harch r' h hts,
   fun hnd => applyOp_timestamp_nodup op l hnd,
   fun ops hl r' h => applyOps_status ops l hl r' h⟩

/-- Witness for C9 on a ledger holding one live and one archived record:
closing the day, the archived copy of the live record satisfies the
per-operation disjunction; the pre-existing archived record's timestamp
still resolves to exactly that record; timestamp uniqueness is
preserved; and after a further closeDay sequence every status is live
or archived. -/
theorem C9_status_monotone_witness :
    ((⟨"t1", "Tea", 2, 20, 40, "Offline", "2026-10-12", "archived"⟩ : SaleRecord) ∈
        [(⟨"t1", "Tea", 2, 20, 40, "Offline", "2026-10-12", "live"⟩ : SaleRecord),
         ⟨"t0", "Old", 1, 5, 5, "Offline", "2026-10-11", "archived"⟩] ∨
      (∃ r, r ∈ [(⟨"t1", "Tea", 2, 20, 40, "Offline", "2026-10-12", "live"⟩ : SaleRecord),
          ⟨"t0", "Old", 1, 5, 5, "Offline", "2026-10-11", "archived"⟩] ∧
        r.status = "live" ∧
        (⟨"t1", "Tea", 2, 20, 40, "Offline", "2026-10-12",
          "archived"⟩ : SaleRecord) =
          ⟨r.timestamp, r.item_name, r.quantity, r.price_per_item,
            r.total_sale, r.channel, r.sale_date, "archived"⟩) ∨
      ((⟨"t1", "Tea", 2, 20, 40, "Offline", "2026-10-12",
          "archived"⟩ : SaleRecord).status = "live" ∧
        hasTimestamp
          [(⟨"t1", "Tea", 2, 20, 40, "Offline", "2026-10-12", "live"⟩ : SaleRecord),
           ⟨"t0", "Old", 1, 5, 5, "Offline", "2026-10-11", "archived"⟩]
          (⟨"t1", "Tea", 2, 20, 40, "Offline", "2026-10-12",
            "archived"⟩ : SaleRecord).timestamp = false)) ∧
    (⟨"t0", "Old", 1, 5, 5, "Offline", "2026-10-11", "archived"⟩ : SaleRecord) =
      ⟨"t0", "Old", 1, 5, 5, "Offline", "2026-10-11", "archived"⟩ ∧
    ((applyOp Op.opCloseDay
        [(⟨"t1", "Tea", 2, 20, 40, "Offline", "2026-10-12", "live"⟩ : SaleRecord),
         ⟨"t0", "Old", 1, 5, 5, "Offline", "2026-10-11", "archived"⟩]).map
      fun r => r.timestamp).Nodup ∧
    ((⟨"t1", "Tea", 2, 20, 40, "Offline", "2026-10-12",
        "archived"⟩ : SaleRecord).status = "live" ∨
      (⟨"t1", "Tea", 2, 20, 40, "Offline", "2026-10-12",
        "archived"⟩ : SaleRecord).status = "archived") :=
  ⟨(C9_status_monotone Op.opCloseDay
      [⟨"t1", "Tea", 2, 20, 40, "Offline", "2026-10-12", "live"⟩,
       ⟨"t0", "Old", 1, 5, 5, "Offline", "2026-10-11", "archived"⟩]).1
     ⟨"t1", "Tea", 2, 20, 40, "Offline", "2026-10-12", "archived"⟩ (by decide),
   (C9_status_monotone Op.opCloseDay
      [⟨"t1", "Tea", 2, 20, 40, "Offline", "2026-10-12", "live"⟩,
       ⟨"t0", "Old", 1, 5, 5, "Offline", "2026-10-11", "archived"⟩]).2.1
     (by decide) ⟨"t0", "Old", 1, 5, 5, "Offline", "2026-10-11", "archived"⟩
     (by decide) rfl
     ⟨"t0", "Old", 1, 5, 5, "Offline", "2026-10-11", "archived"⟩ (by decide) rfl,
   (C9_status_monotone Op.opCloseDay
      [⟨"t1", "Tea", 2, 20, 40, "Offline", "2026-10-12", "live"⟩,
       ⟨"t0", "Old", 1, 5, 5, "Offline", "2026-10-11", "archived"⟩]).2.2.1
     (by decide),
   (C9_status_monotone Op.opCloseDay
      [⟨"t1", "Tea", 2, 20, 40, "Offline", "2026-10-12", "live"⟩,
       ⟨"t0", "Old", 1, 5, 5, "Offline", "2026-10-11", "archived"⟩]).2.2.2
     [Op.opCloseDay] (by decide)
     ⟨"t1", "Tea", 2, 20, 40, "Offline", "2026-10-12", "archived"⟩ (by decide)⟩

/-- Claim C1 counterexample: db.log_sale performs no total_sale
invariant check at write time.  A sale_dict whose Total Sale field (5)
differs from Quantity times Price per Item (2 times 10) is inserted
without any error, and the persisted record keeps the inconsistent
total, contradicting the claimed fail-fast InvariantViolation. -/
theorem C1_counterexample :
    log_sale "2026-10-12" ⟨"t0", "Tea", 2, 10, 5, "Offline"⟩ [] =
      Except.ok [⟨"t0", "Tea", 2, 10, 5, "Offline", "2026-10-12", "live"⟩] ∧
    ¬ ((⟨"t0", "Tea", 2, 10, 5, "Offline", "2026-10-12",
        "live"⟩ : SaleRecord).total_sale =
      (⟨"t0", "Tea", 2, 10, 5, "Offline", "2026-10-12",
        "live"⟩ : SaleRecord).price_per_item *
        ((⟨"t0", "Tea", 2, 10, 5, "Offline", "2026-10-12",
          "live"⟩ : SaleRecord).quantity : Rat)) := by
  constructor
  · rfl
  · norm_num

/-- Claim C1 amended: every record the Order-Builder commit itself
appends satisfies total_sale = price_per_item * quantity, because the
Log Order handler computes the product; db.log_sale checks nothing and
persists whatever totals it is given (see the counterexample). -/
theorem C1_amended (today ch : String) (menu : Menu) (tss : Nat → String)
    (order : Order) (l : Ledger) (r : SaleRecord)
    (h : r ∈ (log_order today ch menu tss order l).ledger) :
    r ∈ l ∨ r.total_sale = r.price_per_item * (r.quantity : Rat) := by
  obtain ⟨hled, _⟩ := log_order_ledger today ch menu tss order l
  rw [hled] at h
  obtain ⟨k, _, hl2, _⟩ := commitLoop_initial today ch menu tss order 0 l
  rw [hl2] at h
  rcases List.mem_append.mp h with h2 | h2
  · exact Or.inl h2
  · exact Or.inr (mem_expectedRecords today ch menu tss _ 0 r h2).1

/-- Witness for C1 amended: the record emitted for a one-line order of
one Tea at price 20 satisfies the product invariant. -/
theorem C1_amended_witness :
    (⟨"ts0", "Tea", 1, 20, 20, "Offline", "2026-10-12", "live"⟩ : SaleRecord) ∈
      ([] : Ledger) ∨
    (⟨"ts0", "Tea", 1, 20, 20, "Offline", "2026-10-12",
      "live"⟩ : SaleRecord).total_sale =
      (⟨"ts0", "Tea", 1, 20, 20, "Offline", "2026-10-12",
        "live"⟩ : SaleRecord).price_per_item *
        ((⟨"ts0", "Tea", 1, 20, 20, "Offline", "2026-10-12",
          "live"⟩ : SaleRecord).quantity : Rat) :=
  C1_amended "2026-10-12" "Offline" [("Tea", 20)] (fun _ => "ts0")
    [("Tea", 1)] []
    ⟨"ts0", "Tea", 1, 20, 20, "Offline", "2026-10-12", "live"⟩
    (by simp [log_order, commitLoop, log_sale, hasTimestamp, menuGet])

/-- Claim C2 counterexample: the Log Order commit loop is not atomic.
With two pending lines and a clock that collides with an existing row on
the second line only, the handler persists the first line, then fails,
leaving exactly a strict subset of the lines in the ledger and the
pending order uncleared. -/
theorem C2_counterexample :
    log_order "2026-10-12" "Offline" [("Tea", 20), ("Coffee", 10)]
      (fun i => if i == 0 then "t0" else "t1")
      [("Tea", 1), ("Coffee", 1)]
      [⟨"t1", "Old", 1, 5, 5, "Offline", "2026-10-11", "live"⟩] =
      ⟨some (DbError.duplicateKey "t1"),
       [⟨"t1", "Old", 1, 5, 5, "Offline", "2026-10-11", "live"⟩,
        ⟨"t0", "Tea", 1, 20, 20, "Offline", "2026-10-12", "live"⟩],
       [("Tea", 1), ("Coffee", 1)]⟩ := by
  simp [log_order, commitLoop, log_sale, hasTimestamp, menuGet]

/-- Claim C2 amended: the commit loop writes one record per line in
order and stops at the first failing INSERT: the resulting ledger is
always the original plus the records of an initial segment of the lines;
the segment is the whole order (and the builder is cleared) exactly when
no line failed, and after a failure the pending order is left intact, so
a mid-loop failure leaves a partial commit rather than rolling back. -/
theorem C2_amended (today ch : String) (menu : Menu) (tss : Nat → String)
    (order : Order) (l : Ledger) :
    ∃ k, k ≤ order.length ∧
      (log_order today ch menu tss order l).ledger =
        l ++ expectedRecords today ch menu tss 0 (order.take k) ∧
      ((log_order today ch menu tss order l).result = none →
        k = order.length ∧ (log_order today ch menu tss order l).builder = []) ∧
      (¬ (log_order today ch menu tss order l).result = none →
        (log_order today ch menu tss order l).builder = order) := by
  obtain ⟨hled, hres⟩ := log_order_ledger today ch menu tss order l
  obtain ⟨k, hk, hl2, hkres⟩ := commitLoop_initial today ch menu tss order 0 l
  refine ⟨k, hk, by rw [hled, hl2], ?_, ?_⟩
  · intro hnone
    rw [hres] at hnone
    refine ⟨hkres hnone, ?_⟩
    unfold log_order
    rcases hcl : commitLoop today ch menu tss 0 order l with ⟨res, l2⟩
    rw [hcl] at hnone
    cases res with
    | none => simp
    | some e => cases hnone
  · intro hsome
    rw [hres] at hsome
    unfold log_order
    rcases hcl : commitLoop today ch menu tss 0 order l with ⟨res, l2⟩
    rw [hcl] at hsome
    cases res with
    | none => exact absurd rfl hsome
    | some e => simp

/-- Witness for C2 amended, instantiated at the failing two-line commit
of the counterexample. -/
theorem C2_amended_witness :
    ∃ k, k ≤ ([("Tea", 1), ("Coffee", 1)] : Order).length ∧
      (log_order "2026-10-12" "Offline" [("Tea", 20), ("Coffee", 10)]
        (fun i => if i == 0 then "t0" else "t1")
        [("Tea", 1), ("Coffee", 1)]
        [⟨"t1", "Old", 1, 5, 5, "Offline", "2026-10-11", "live"⟩]).ledger =
        [⟨"t1", "Old", 1, 5, 5, "Offline", "2026-10-11", "live"⟩] ++
          expectedRecords "2026-10-12" "Offline" [("Tea", 20), ("Coffee", 10)]
            (fun i => if i == 0 then "t0" else "t1") 0
            (([("Tea", 1), ("Coffee", 1)] : Order).take k) ∧
      ((log_order "2026-10-12" "Offline" [("Tea", 20), ("Coffee", 10)]
        (fun i => if i == 0 then "t0" else "t1")
        [("Tea", 1), ("Coffee", 1)]
        [⟨"t1", "Old", 1, 5, 5, "Offline", "2026-10-11", "live"⟩]).result = none →
        k = ([("Tea", 1), ("Coffee", 1)] : Order).length ∧
        (log_order "2026-10-12" "Offline" [("Tea", 20), ("Coffee", 10)]
          (fun i => if i == 0 then "t0" else "t1")
          [("Tea", 1), ("Coffee", 1)]
          [⟨"t1", "Old", 1, 5, 5, "Offline", "2026-10-11", "live"⟩]).builder = []) ∧
      (¬ (log_order "2026-10-12" "Offline" [("Tea", 20), ("Coffee", 10)]
        (fun i => if i == 0 then "t0" else "t1")
        [("Tea", 1), ("Coffee", 1)]
        [⟨"t1", "Old", 1, 5, 5, "Offline", "2026-10-11", "live"⟩]).result = none →
        (log_order "2026-10-12" "Offline" [("Tea", 20), ("Coffee", 10)]
          (fun i => if i == 0 then "t0" else "t1")
          [("Tea", 1), ("Coffee", 1)]
          [⟨"t1", "Old", 1, 5, 5, "Offline", "2026-10-11", "live"⟩]).builder =
          [("Tea", 1), ("Coffee", 1)]) :=
  C2_amended "2026-10-12" "Offline" [("Tea", 20), ("Coffee", 10)]
    (fun i => if i == 0 then "t0" else "t1")
    [("Tea", 1), ("Coffee", 1)]
    [⟨"t1", "Old", 1, 5, 5, "Offline", "2026-10-11", "live"⟩]

/-- Claim C4 counterexample: commit does not read the persistent Menu
Catalog at commit time.  A session loads the cache while Tea costs 20;
the persistent store is then edited to price Tea at 30; the commit that
follows still emits a record priced 20 from the session cache, not the
edited price 30. -/
theorem C4_counterexample :
    getMenusCached ⟨[("Tea", 20)], none⟩ =
      ([("Tea", 20)], ⟨[("Tea", 20)], some [("Tea", 20)]⟩) ∧
    add_menu_item "Tea" 30 [("Tea", 20)] = [("Tea", 30)] ∧
    menuGet [("Tea", 30)] "Tea" = 30 ∧
    (log_order "2026-10-12" "Offline" [("Tea", 20)] (fun _ => "ts0")
      [("Tea", 1)] []).ledger =
      [⟨"ts0", "Tea", 1, 20, 20, "Offline", "2026-10-12", "live"⟩] ∧
    ¬ ((⟨"ts0", "Tea", 1, 20, 20, "Offline", "2026-10-12",
        "live"⟩ : SaleRecord).price_per_item = menuGet [("Tea", 30)] "Tea") := by
  refine ⟨rfl, by decide, by decide, ?_, by decide⟩
  simp [log_order, commitLoop, log_sale, hasTimestamp, menuGet]

/-- Claim C4 amended: commit prices every line from the menu cached in
the session on first access, not from the persistent store: once the
cache is loaded, an add_menu_item edit to the persistent store leaves
the menu the session reads unchanged, and every record a commit appends
is priced by a lookup in that cached menu. -/
theorem C4_amended (s : Session) (m : Menu) (s2 : Session) (item : String)
    (price : Rat) (h : getMenusCached s = (m, s2)) :
    getMenusCached ⟨add_menu_item item price s2.dbMenu, s2.cache⟩ =
      (m, ⟨add_menu_item item price s2.dbMenu, s2.cache⟩) ∧
    ∀ (today ch : String) (tss : Nat → String) (order : Order) (l : Ledger)
      (r : SaleRecord), r ∈ (log_order today ch m tss order l).ledger →
      r ∈ l ∨ r.price_per_item = menuGet m r.item_name := by
  have hcache : s2.cache = some m := by
    unfold getMenusCached at h
    cases hc : s.cache with
    | some m0 =>
      rw [hc] at h
      simp only [Prod.mk.injEq] at h
      obtain ⟨rfl, rfl⟩ := h
      exact hc
    | none =>
      rw [hc] at h
      simp only [Prod.mk.injEq] at h
      obtain ⟨rfl, rfl⟩ := h
      rfl
  constructor
  · rw [hcache]
    rfl
  · intro today ch tss order l r hmem
    obtain ⟨hled, _⟩ := log_order_ledger today ch m tss order l
    rw [hled] at hmem
    obtain ⟨k, _, hl2, _⟩ := commitLoop_initial today ch m tss order 0 l
    rw [hl2] at hmem
    rcases List.mem_append.mp hmem with h2 | h2
    · exact Or.inl h2
    · exact Or.inr (mem_expectedRecords today ch m tss _ 0 r h2).2.1

/-- Witness for C4 amended at the counterexample's session: the cache
survives the external price edit, and the emitted record is priced from
the cache. -/
theorem C4_amended_witness :
    getMenusCached ⟨add_menu_item "Tea" 30
        (⟨[("Tea", 20)], some [("Tea", 20)]⟩ : Session).dbMenu,
        (⟨[("Tea", 20)], some [("Tea", 20)]⟩ : Session).cache⟩ =
      ([("Tea", 20)], ⟨add_menu_item "Tea" 30
        (⟨[("Tea", 20)], some [("Tea", 20)]⟩ : Session).dbMenu,
        (⟨[("Tea", 20)], some [("Tea", 20)]⟩ : Session).cache⟩) ∧
    ((⟨"ts0", "Tea", 1, 20, 20, "Offline", "2026-10-12", "live"⟩ : SaleRecord) ∈
        ([] : Ledger) ∨
      (⟨"ts0", "Tea", 1, 20, 20, "Offline", "2026-10-12",
        "live"⟩ : SaleRecord).price_per_item =
        menuGet [("Tea", 20)]
          (⟨"ts0", "Tea", 1, 20, 20, "Offline", "2026-10-12",
            "live"⟩ : SaleRecord).item_name) :=
  ⟨(C4_amended ⟨[("Tea", 20)], none⟩ [("Tea", 20)]
      ⟨[("Tea", 20)], some [("Tea", 20)]⟩ "Tea" 30 rfl).1,
   (C4_amended ⟨[("Tea", 20)], none⟩ [("Tea", 20)]
      ⟨[("Tea", 20)], some [("Tea", 20)]⟩ "Tea" 30 rfl).2
     "2026-10-12" "Offline" (fun _ => "ts0") [("Tea", 1)] []
     ⟨"ts0", "Tea", 1, 20, 20, "Offline", "2026-10-12", "live"⟩
     (by simp [log_order, commitLoop, log_sale, hasTimestamp, menuGet])⟩

/-- Claim C5 counterexample: closeDay from a state with no record dated
today does not make listArchivedDates include today.  From the empty
ledger, archive_live_sales yields the empty ledger and
get_archived_dates yields the empty list, which does not contain the
current date. -/
theorem C5_counterexample :
    archive_live_sales ([] : Ledger) = [] ∧
    get_archived_dates (archive_live_sales ([] : Ledger)) = [] ∧
    ¬ ("2026-10-12" ∈ get_archived_dates (archive_live_sales ([] : Ledger))) := by
  refine ⟨rfl, ?_, ?_⟩
  · simp [get_archived_dates, archive_live_sales]
  · simp [get_archived_dates, archive_live_sales]

/-- Claim C5 amended: after closeDay, listArchivedDates includes today's
date provided at least one record with sale_date = today was live
immediately before the call (as in the spec's scenario of logging sales
and then closing the day); with no record dated today it need not. -/
theorem C5_amended (l : Ledger) (today : String) (r : SaleRecord)
    (hr : r ∈ l) (hlive : r.status = "live") (hdate : r.sale_date = today) :
    today ∈ get_archived_dates (archive_live_sales l) := by
  have hmem := mem_archive_of_mem l r hr
  rw [archiveStep_of_live r hlive] at hmem
  have hd := mem_get_archived_dates (archive_live_sales l) _ hmem rfl
  simpa [hdate] using hd

/-- Witness for C5 amended: one live Tea sale dated 2026-10-12, then
closeDay; the archived dates include 2026-10-12. -/
theorem C5_amended_witness :
    "2026-10-12" ∈ get_archived_dates (archive_live_sales
      [⟨"t1", "Tea", 2, 20, 40, "Offline", "2026-10-12", "live"⟩]) :=
  C5_amended [⟨"t1", "Tea", 2, 20, 40, "Offline", "2026-10-12", "live"⟩]
    "2026-10-12" ⟨"t1", "Tea", 2, 20, 40, "Offline", "2026-10-12", "live"⟩
    (by decide) rfl rfl

/-- Claim C10: an order line whose item is absent from the cached menu
does not make commit fail: in any successful commit the line is emitted
with price_per_item = 0 and total_sale = 0 (menu.get's 0.0 default), and
a one-line order for an absent item commits successfully whenever its
timestamp is fresh, emitting the zero-priced record and clearing the
builder. -/
theorem C10_missing_item_zero (today ch : String) (menu : Menu)
    (tss : Nat → String) (order : Order) (l : Ledger) (i : Nat)
    (itm : String) (qty : Nat) :
    ((log_order today ch menu tss order l).result = none →
      order[i]? = some (itm, qty) →
      menu.find? (fun p => p.1 == itm) = none →
      (⟨tss i, itm, qty, 0, 0, ch, today, "live"⟩ : SaleRecord) ∈
        (log_order today ch menu tss order l).ledger) ∧
    (hasTimestamp l (tss 0) = false →
      menu.find? (fun p => p.1 == itm) = none →
      log_order today ch menu tss [(itm, qty)] l =
        ⟨none, l ++ [⟨tss 0, itm, qty, 0, 0, ch, today, "live"⟩], []⟩) := by
  constructor
  · intro hres horder hfind
    obtain ⟨hled, hresled⟩ := log_order_ledger today ch menu tss order l
    rw [hresled] at hres
    rw [hled, commitLoop_ok today ch menu tss order 0 l hres]
    have hline := expectedRecords_getElem today ch menu tss order 0 i itm qty horder
    have hrec : lineRecord today ch menu tss (0 + i) itm qty =
        ⟨tss i, itm, qty, 0, 0, ch, today, "live"⟩ := by
      simp [lineRecord, menuGet, hfind]
    rw [hrec] at hline
    exact List.mem_append.mpr (Or.inr hline)
  · intro hfresh hfind
    simp [log_order, commitLoop, log_sale, hfresh, menuGet, hfind]

/-- Witness for C10: committing the one-line order of two Chai against
the empty menu succeeds and records price 0 and total 0. -/
theorem C10_missing_item_zero_witness :
    ((⟨"ts0", "Chai", 2, 0, 0, "Offline", "2026-10-12", "live"⟩ : SaleRecord) ∈
      (log_order "2026-10-12" "Offline" [] (fun _ => "ts0")
        [("Chai", 2)] []).ledger) ∧
    log_order "2026-10-12" "Offline" [] (fun _ => "ts0") [("Chai", 2)] [] =
      ⟨none, [] ++ [⟨"ts0", "Chai", 2, 0, 0, "Offline", "2026-10-12", "live"⟩], []⟩ :=
  ⟨(C10_missing_item_zero "2026-10-12" "Offline" [] (fun _ => "ts0")
      [("Chai", 2)] [] 0 "Chai" 2).1
     (by simp [log_order, commitLoop, log_sale, hasTimestamp, menuGet]) rfl rfl,
   (C10_missing_item_zero "2026-10-12" "Offline" [] (fun _ => "ts0")
      [("Chai", 2)] [] 0 "Chai" 2).2 rfl rfl⟩

end YummYard
